import Mathlib

/-!
Verification of the WiFi-Robot serial protocol engine, UART FIFO and command
dispatch (STM8 firmware).  The C sources (Esp8266.c, Uart.c, main.c,
DriveController.c) are shallowly embedded: global/static variables become
fields of explicit state records, machine integers become `Nat`/`Int`, and the
per-byte interrupt handler becomes a pure step function that also reports the
packet-buffer indices it writes and the packet sizes it parses.
-/

/-! ## Constants from Esp8266.h / Uart.h / DriveController.h -/

/-- ESP8266_RX_BUFFER_SIZE from Esp8266.h. -/
def ESP8266_RX_BUFFER_SIZE : Nat := 64

/-- UART_BUFFER_SIZE from Uart.h. -/
def UART_BUFFER_SIZE : Nat := 64

/-- TIMEOUT_LONG sentinel (0xFFFFFFFF) from Esp8266.h. -/
def TIMEOUT_LONG : Nat := 4294967295

/-- TIMEOUT_SHORT sentinel (0x00FFFFFF) from Esp8266.h. -/
def TIMEOUT_SHORT : Nat := 16777215

/-- Status bit for a completed OK message. -/
def ESP8266_OK_MESSAGE : Nat := 1

/-- Status bit for a completed ready message. -/
def ESP8266_READY_MESSAGE : Nat := 2

/-- Status bit for a completed transmit-prompt message. -/
def ESP8266_TX_READY_MESSAGE : Nat := 4

/-- Status bit for a completed inbound application packet. -/
def ESP8266_RX_PACKET_MESSAGE : Nat := 8

/-- The bytes of the literal OK_MSG = "OK\r\n" (without the trailing NUL). -/
def OK_MSG : List Nat := [79, 75, 13, 10]

/-- The bytes of the literal READY_MSG = "ready\r\n". -/
def READY_MSG : List Nat := [114, 101, 97, 100, 121, 13, 10]

/-- The bytes of the literal TX_READY_MSG = "> ". -/
def TX_READY_MSG : List Nat := [62, 32]

/-- The bytes of the literal RX_PACKET_MSG = "+IPD,1," (the inbound header prefix). -/
def RX_PACKET_MSG : List Nat := [43, 73, 80, 68, 44, 49, 44]

/-- Direction code STOP = 0 from enum Directions. -/
def STOP : Nat := 0

/-- Direction code FORWARD = 1. -/
def FORWARD : Nat := 1

/-- Direction code BACKWARD = 2. -/
def BACKWARD : Nat := 2

/-- Direction code LEFT = 3. -/
def LEFT : Nat := 3

/-- Direction code SHARP_LEFT = 4. -/
def SHARP_LEFT : Nat := 4

/-- Direction code RIGHT = 5. -/
def RIGHT : Nat := 5

/-- Direction code SHARP_RIGHT = 6. -/
def SHARP_RIGHT : Nat := 6

/-! ## Generic byte-buffer helpers -/

/-- Pointwise update of a byte buffer modelled as a function. -/
def updateFn (p : Nat → Nat) (i v : Nat) : Nat → Nat :=
  fun j => if j = i then v else p j

/-- Write the bytes of a list into a buffer at consecutive indices starting at `i`. -/
def writeSeq : (Nat → Nat) → Nat → List Nat → (Nat → Nat)
  | p, _, [] => p
  | p, i, b :: bs => writeSeq (updateFn p i b) (i + 1) bs

/-- Read the C string stored in buffer `p` starting at index `i`: the bytes up
to (excluding) the first NUL byte, scanning at most `fuel` cells. -/
def cStringFrom (p : Nat → Nat) : Nat → Nat → List Nat
  | _, 0 => []
  | i, fuel + 1 => if p i = 0 then [] else p i :: cStringFrom p (i + 1) fuel

/-! ## sscanf("%d") on a byte string -/

/-- Whitespace bytes skipped by sscanf before a %d conversion. -/
def isSpaceByte (b : Nat) : Bool := b = 32 || (9 ≤ b && b ≤ 13)

/-- ASCII decimal digit test. -/
def isDigitByte (b : Nat) : Bool := 48 ≤ b && b ≤ 57

/-- Accumulate the value of a list of ASCII digits. -/
def digitsToNat : List Nat → Nat → Nat
  | [], acc => acc
  | d :: ds, acc => digitsToNat ds (acc * 10 + (d - 48))

/-- Read a maximal run of decimal digits; fails when there is none. -/
def readNat (s : List Nat) : Option Nat :=
  let ds := s.takeWhile isDigitByte
  if ds.isEmpty then none else some (digitsToNat ds 0)

/-- sscanf(s, "%d", &v): skip whitespace, optional sign, then at least one
decimal digit; returns the converted value exactly when the conversion
succeeds (sscanf result 1). -/
def sscanfDec (s : List Nat) : Option Int :=
  let s1 := s.dropWhile isSpaceByte
  match s1 with
  | 45 :: rest => (readNat rest).map (fun n => -(n : Int))
  | 43 :: rest => (readNat rest).map (fun n => (n : Int))
  | _ => (readNat s1).map (fun n => (n : Int))

/-! ## ASCII decimal rendering of a number (for building `+IPD,1,<L>:` streams) -/

/-- Auxiliary for `decDigits`, with fuel. -/
def decDigitsCore : Nat → Nat → List Nat
  | 0, _ => []
  | fuel + 1, n => if n = 0 then [] else decDigitsCore fuel (n / 10) ++ [48 + n % 10]

/-- The ASCII decimal digits of `n`, most significant first. -/
def decDigits (n : Nat) : List Nat :=
  if n = 0 then [48] else decDigitsCore n n

/-! ## Esp8266.c protocol-engine state machine -/

/-- enum RxState from Esp8266.h. -/
inductive RxState where
  | ESP8266_RESET
  | ESP8266_GET_READY
  | ESP8266_GET_OK
  | ESP8266_GET_RX_HEADER
  | ESP8266_GET_RX_PACKET_SIZE
  | ESP8266_GET_RX_PACKET
  | ESP8266_GET_TX
deriving DecidableEq

/-- The mutable state of the protocol engine: the static locals `esp_state`
and `count` of Esp8266_ProcessRxByte plus the globals `packet`, `packetSize`
and `status` of Esp8266.c. -/
structure EspState where
  esp_state : RxState
  count : Nat
  packet : Nat → Nat
  packetSize : Int
  status : Nat

/-- The state of the C globals right after reset: `esp_state = ESP8266_RESET`,
`count = 0`, `packet` all zeros, `packetSize = 0`, `status = 0`. -/
def espInit : EspState :=
  { esp_state := .ESP8266_RESET, count := 0, packet := fun _ => 0,
    packetSize := 0, status := 0 }

/-- Esp8266_ProcessRxByte from Esp8266.c: one step of the RX state machine.
Besides the successor state it reports the list of `packet[]` indices written
during the step and the list of packet sizes successfully parsed during the
step (instrumentation used to state buffer-safety properties; the C code
performs exactly these writes). -/
def Esp8266_ProcessRxByte (st : EspState) (byte : Nat) : EspState × List Nat × List Int :=
  match st.esp_state with
  | .ESP8266_RESET =>
      -- count = 0; switch(byte) selecting a matcher; count++
      let state1 :=
        if byte = OK_MSG.getD 0 0 then RxState.ESP8266_GET_OK
        else if byte = READY_MSG.getD 0 0 then RxState.ESP8266_GET_READY
        else if byte = RX_PACKET_MSG.getD 0 0 then RxState.ESP8266_GET_RX_HEADER
        else if byte = TX_READY_MSG.getD 0 0 then RxState.ESP8266_GET_TX
        else RxState.ESP8266_RESET
      ({ st with esp_state := state1, count := 1 }, [], [])
  | .ESP8266_GET_READY =>
      if byte = READY_MSG.getD st.count 0 then
        if st.count + 1 ≥ READY_MSG.length then
          ({ st with esp_state := .ESP8266_RESET, count := st.count + 1,
                     status := st.status ||| ESP8266_READY_MESSAGE }, [], [])
        else
          ({ st with count := st.count + 1 }, [], [])
      else
        ({ st with esp_state := .ESP8266_RESET }, [], [])
  | .ESP8266_GET_OK =>
      if byte = OK_MSG.getD st.count 0 then
        if st.count + 1 ≥ OK_MSG.length then
          ({ st with esp_state := .ESP8266_RESET, count := st.count + 1,
                     status := st.status ||| ESP8266_OK_MESSAGE }, [], [])
        else
          ({ st with count := st.count + 1 }, [], [])
      else
        ({ st with esp_state := .ESP8266_RESET }, [], [])
  | .ESP8266_GET_RX_HEADER =>
      if byte = RX_PACKET_MSG.getD st.count 0 then
        if st.count + 1 ≥ RX_PACKET_MSG.length then
          ({ st with esp_state := .ESP8266_GET_RX_PACKET_SIZE, count := 0 }, [], [])
        else
          ({ st with count := st.count + 1 }, [], [])
      else
        ({ st with esp_state := .ESP8266_RESET }, [], [])
  | .ESP8266_GET_RX_PACKET_SIZE =>
      if byte ≠ 58 then
        -- packet[count++] = byte
        ({ st with packet := updateFn st.packet st.count byte,
                   count := st.count + 1 }, [st.count], [])
      else
        -- packet[count] = 0; sscanf(packet, "%d", &size)
        let p1 := updateFn st.packet st.count 0
        match sscanfDec (cStringFrom p1 0 (st.count + 1)) with
        | some v =>
            ({ st with packet := p1, packetSize := v,
                       esp_state := .ESP8266_GET_RX_PACKET, count := 0 },
             [st.count], [v])
        | none =>
            ({ st with packet := p1, esp_state := .ESP8266_RESET }, [st.count], [])
  | .ESP8266_GET_RX_PACKET =>
      -- packet[count++] = byte; if (count >= packetSize) complete
      let p1 := updateFn st.packet st.count byte
      if ((st.count + 1 : Nat) : Int) ≥ st.packetSize then
        ({ st with packet := p1, count := st.count + 1,
                   esp_state := .ESP8266_RESET,
                   status := st.status ||| ESP8266_RX_PACKET_MESSAGE }, [st.count], [])
      else
        ({ st with packet := p1, count := st.count + 1 }, [st.count], [])
  | .ESP8266_GET_TX =>
      if byte = TX_READY_MSG.getD st.count 0 then
        if st.count + 1 ≥ TX_READY_MSG.length then
          ({ st with esp_state := .ESP8266_RESET, count := st.count + 1,
                     status := st.status ||| ESP8266_TX_READY_MESSAGE }, [], [])
        else
          ({ st with count := st.count + 1 }, [], [])
      else
        ({ st with esp_state := .ESP8266_RESET }, [], [])

/-- Feed a list of bytes to the state machine, one byte at a time. -/
def espRun : EspState → List Nat → EspState
  | st, [] => st
  | st, b :: bs => espRun (Esp8266_ProcessRxByte st b).1 bs

/-- All `packet[]` indices written while feeding a list of bytes. -/
def espRunWrites : EspState → List Nat → List Nat
  | _, [] => []
  | st, b :: bs =>
      (Esp8266_ProcessRxByte st b).2.1 ++ espRunWrites (Esp8266_ProcessRxByte st b).1 bs

/-- All packet sizes successfully parsed while feeding a list of bytes. -/
def espRunDeclared : EspState → List Nat → List Int
  | _, [] => []
  | st, b :: bs =>
      (Esp8266_ProcessRxByte st b).2.2 ++ espRunDeclared (Esp8266_ProcessRxByte st b).1 bs

/-- `status &= ~msgType` on an 8-bit status byte: clear the bits of `m`. -/
def clearMask (s m : Nat) : Nat := s &&& (255 ^^^ m)

/-- Esp8266_ReceiveMsg from Esp8266.c.  `dest` is the caller's buffer; the
result is (return value, new engine state, caller buffer after the memcpy of
`packetSize` bytes). -/
def Esp8266_ReceiveMsg (st : EspState) (dest : Nat → Nat) :
    Int × EspState × (Nat → Nat) :=
  if st.status &&& ESP8266_RX_PACKET_MESSAGE ≠ 0 then
    (st.packetSize,
     { st with status := clearMask st.status ESP8266_RX_PACKET_MESSAGE },
     fun i => if (i : Int) < st.packetSize then st.packet i else dest i)
  else
    (0, st, dest)

/-- WaitForResponse from Esp8266.c.  The busy loop reads `status` repeatedly;
`obs` is the sequence of status-word values it observes (new values appear as
interrupts raise flags).  The loop body never decrements `timeout` (the
decrement is commented out in the source), so the wait is unconditional:
`none` models the loop still spinning after all observations.  On success the
observed mask bits are cleared and 1 is returned. -/
def WaitForResponse (msgType timeout : Nat) : List Nat → Option (Nat × Nat)
  | [] => none
  | s :: rest =>
      if s &&& msgType = msgType then some (1, clearMask s msgType)
      else WaitForResponse msgType timeout rest

/-! ## Uart.c receive FIFO -/

/-- The FIFO globals of Uart.c: the byte buffer and the two cursors. -/
structure UartFifo where
  fifo : Nat → Nat
  enqueueIndex : Nat
  dequeueIndex : Nat

/-- Uart_FifoGetNextIndex: circular increment with wrap at UART_BUFFER_SIZE. -/
def Uart_FifoGetNextIndex (index : Nat) : Nat :=
  if index + 1 ≥ UART_BUFFER_SIZE then 0 else index + 1

/-- Uart_FifoIsEmpty: read cursor equals write cursor. -/
def Uart_FifoIsEmpty (q : UartFifo) : Bool :=
  q.dequeueIndex = q.enqueueIndex

/-- Uart_FifoIsFull: advancing the write cursor would meet the read cursor. -/
def Uart_FifoIsFull (q : UartFifo) : Bool :=
  Uart_FifoGetNextIndex q.enqueueIndex = q.dequeueIndex

/-- Uart_FifoEnqueue: returns (1, new state) on success and (0, unchanged
state) when the FIFO reports full. -/
def Uart_FifoEnqueue (q : UartFifo) (data : Nat) : Nat × UartFifo :=
  if ¬ Uart_FifoIsFull q then
    (1, { q with fifo := updateFn q.fifo q.enqueueIndex data,
                 enqueueIndex := Uart_FifoGetNextIndex q.enqueueIndex })
  else
    (0, q)

/-- Uart_FifoDequeue: returns (byte, new state); the default 0 when empty. -/
def Uart_FifoDequeue (q : UartFifo) : Nat × UartFifo :=
  if ¬ Uart_FifoIsEmpty q then
    (q.fifo q.dequeueIndex,
     { q with dequeueIndex := Uart_FifoGetNextIndex q.dequeueIndex })
  else
    (0, q)

/-- Enqueue a list of bytes in order, collecting the enqueue return codes. -/
def enqAll : UartFifo → List Nat → List Nat × UartFifo
  | q, [] => ([], q)
  | q, b :: bs =>
      let r := Uart_FifoEnqueue q b
      let rest := enqAll r.2 bs
      (r.1 :: rest.1, rest.2)

/-- Dequeue `n` times, collecting the dequeued bytes in order. -/
def deqAll : UartFifo → Nat → List Nat × UartFifo
  | q, 0 => ([], q)
  | q, n + 1 =>
      let r := Uart_FifoDequeue q
      let rest := deqAll r.2 n
      (r.1 :: rest.1, rest.2)

/-! ## main.c command dispatch and DriveController.c actuation -/

/-- An actuator call issued by the main-loop dispatch. -/
inductive DriveAction where
  | stop
  | forward
  | backward
  | turn (direction : Nat)
  | setSpeed (percent : Nat)
deriving DecidableEq

/-- A Motor(motor, direction) call issued by DriveController.c. -/
inductive MotorCmd where
  | motor (id : Nat) (direction : Nat)
deriving DecidableEq

/-- The switch on packet[0] in the main loop of main.c, recorded as the list
of actuator calls it performs (in call order).  Cases: STOP, FORWARD,
BACKWARD, LEFT, RIGHT; any other code falls through the switch untouched. -/
def mainDispatch (pkt : Nat → Nat) : List DriveAction :=
  if pkt 0 = STOP then [DriveAction.stop, DriveAction.setSpeed 0]
  else if pkt 0 = FORWARD then [DriveAction.forward, DriveAction.setSpeed (pkt 1)]
  else if pkt 0 = BACKWARD then [DriveAction.backward, DriveAction.setSpeed (pkt 1)]
  else if pkt 0 = LEFT then [DriveAction.turn LEFT, DriveAction.setSpeed (pkt 1)]
  else if pkt 0 = RIGHT then [DriveAction.turn RIGHT, DriveAction.setSpeed (pkt 1)]
  else []

/-- DriveCtrl_Turn from DriveController.c, recorded as the Motor calls it
makes; an unrecognized direction falls through the switch doing nothing. -/
def DriveCtrl_Turn (direction : Nat) : List MotorCmd :=
  if direction = LEFT then [MotorCmd.motor LEFT STOP, MotorCmd.motor RIGHT FORWARD]
  else if direction = SHARP_LEFT then [MotorCmd.motor LEFT BACKWARD, MotorCmd.motor RIGHT FORWARD]
  else if direction = RIGHT then [MotorCmd.motor LEFT FORWARD, MotorCmd.motor RIGHT STOP]
  else if direction = SHARP_RIGHT then [MotorCmd.motor LEFT FORWARD, MotorCmd.motor RIGHT BACKWARD]
  else []

/-- Invariant of the RX machine for the body-reading state: the progress
counter is at the start of the body or still below the declared size, and the
declared size fits the 64-byte buffer. -/
def WriteInv (st : EspState) : Prop :=
  st.esp_state = .ESP8266_GET_RX_PACKET →
    (st.count = 0 ∨ (st.count : Int) < st.packetSize) ∧ st.packetSize ≤ 64

/-! ## Concrete streams used in counterexamples and scenario claims -/

/-- The stream `+IPD,1,0:` declaring a zero-length packet. -/
def zeroLenStream : List Nat := RX_PACKET_MSG ++ [48, 58]

/-- The truncated stream `+IPD,1,2:` followed by a single body byte 0. -/
def truncatedStream : List Nat := RX_PACKET_MSG ++ [50, 58, 0]

/-- A header followed by a 65-byte length field of ASCII zeros and the colon:
the declared size parses to 0 but the field overflows the 64-byte buffer. -/
def overflowStream : List Nat := RX_PACKET_MSG ++ List.replicate 65 48 ++ [58]

/-- A packet whose first byte is the SHARP_LEFT direction code 4, speed 50. -/
def pktSharpLeft : Nat → Nat := fun i => if i = 0 then 4 else if i = 1 then 50 else 0

/-- A packet whose first byte is the SHARP_RIGHT direction code 6, speed 50. -/
def pktSharpRight : Nat → Nat := fun i => if i = 0 then 6 else if i = 1 then 50 else 0

/-! ## Helper lemmas -/

theorem espRun_append (xs ys : List Nat) (st : EspState) :
    espRun st (xs ++ ys) = espRun (espRun st xs) ys := by
  induction xs generalizing st with
  | nil => rfl
  | cons b bs ih => simp [espRun, ih]

theorem espRunWrites_append (xs ys : List Nat) (st : EspState) :
    espRunWrites st (xs ++ ys) = espRunWrites st xs ++ espRunWrites (espRun st xs) ys := by
  induction xs generalizing st with
  | nil => rfl
  | cons b bs ih => simp [espRunWrites, espRun, ih]

theorem espRunDeclared_append (xs ys : List Nat) (st : EspState) :
    espRunDeclared st (xs ++ ys) = espRunDeclared st xs ++ espRunDeclared (espRun st xs) ys := by
  induction xs generalizing st with
  | nil => rfl
  | cons b bs ih => simp [espRunDeclared, espRun, ih]

theorem writeSeq_lt (bs : List Nat) (p : Nat → Nat) (i j : Nat) (h : j < i) :
    writeSeq p i bs j = p j := by
  induction bs generalizing p i with
  | nil => rfl
  | cons b bs ih =>
      rw [writeSeq, ih _ _ (Nat.lt_succ_of_lt h)]
      simp [updateFn, Nat.ne_of_lt h]

theorem writeSeq_at (bs : List Nat) (p : Nat → Nat) (i k : Nat) (h : k < bs.length) :
    writeSeq p i bs (i + k) = bs.getD k 0 := by
  induction bs generalizing p i k with
  | nil => simp at h
  | cons b bs ih =>
      cases k with
      | zero =>
          rw [writeSeq]
          simp only [Nat.add_zero, List.getD_cons_zero]
          rw [writeSeq_lt bs (updateFn p i b) (i + 1) i (by omega)]
          simp [updateFn]
      | succ k =>
          rw [writeSeq, show i + (k + 1) = (i + 1) + k by omega,
              ih _ _ _ (by simpa using h)]
          rfl

theorem cString_writeSeq (ds : List Nat) (p : Nat → Nat) (i : Nat)
    (h : ∀ b ∈ ds, b ≠ 0) :
    cStringFrom (updateFn (writeSeq p i ds) (i + ds.length) 0) i (ds.length + 1) = ds := by
  induction ds generalizing p i with
  | nil => simp [cStringFrom, updateFn]
  | cons d ds ih =>
      have hd : d ≠ 0 := h d (by simp)
      have hidx : i + (d :: ds).length = (i + 1) + ds.length := by
        simp only [List.length_cons]
        omega
      have hq : updateFn (writeSeq p i (d :: ds)) (i + (d :: ds).length) 0 =
          updateFn (writeSeq (updateFn p i d) (i + 1) ds) ((i + 1) + ds.length) 0 := by
        rw [writeSeq, hidx]
      have hval : updateFn (writeSeq (updateFn p i d) (i + 1) ds) ((i + 1) + ds.length) 0 i
          = d := by
        rw [updateFn]
        have hne : ¬ i = (i + 1) + ds.length := by omega
        rw [if_neg hne, writeSeq_lt _ _ _ _ (Nat.lt_succ_self i)]
        simp [updateFn]
      rw [hq, show (d :: ds).length + 1 = (ds.length + 1) + 1 from by simp]
      rw [cStringFrom, hval, if_neg hd]
      rw [ih (updateFn p i d) (i + 1) (fun b hb => h b (by simp [hb]))]

theorem headerRun (c : Nat) (p : Nat → Nat) (sz : Int) (s : Nat) :
    espRun ⟨.ESP8266_RESET, c, p, sz, s⟩ RX_PACKET_MSG =
      ⟨.ESP8266_GET_RX_PACKET_SIZE, 0, p, sz, s⟩ := rfl

theorem okRun (c : Nat) (p : Nat → Nat) (sz : Int) (s : Nat) :
    espRun ⟨.ESP8266_RESET, c, p, sz, s⟩ OK_MSG =
      ⟨.ESP8266_RESET, 4, p, sz, s ||| ESP8266_OK_MESSAGE⟩ := rfl

theorem readyRun (c : Nat) (p : Nat → Nat) (sz : Int) (s : Nat) :
    espRun ⟨.ESP8266_RESET, c, p, sz, s⟩ READY_MSG =
      ⟨.ESP8266_RESET, 7, p, sz, s ||| ESP8266_READY_MESSAGE⟩ := rfl

theorem txRun (c : Nat) (p : Nat → Nat) (sz : Int) (s : Nat) :
    espRun ⟨.ESP8266_RESET, c, p, sz, s⟩ TX_READY_MSG =
      ⟨.ESP8266_RESET, 2, p, sz, s ||| ESP8266_TX_READY_MESSAGE⟩ := rfl

theorem sizeRun (ds : List Nat) (c : Nat) (p : Nat → Nat) (sz : Int) (s : Nat)
    (h : ∀ b ∈ ds, b ≠ 58) :
    espRun ⟨.ESP8266_GET_RX_PACKET_SIZE, c, p, sz, s⟩ ds =
      ⟨.ESP8266_GET_RX_PACKET_SIZE, c + ds.length, writeSeq p c ds, sz, s⟩ := by
  induction ds generalizing c p with
  | nil => simp [espRun, writeSeq]
  | cons d ds ih =>
      have hd : d ≠ 58 := h d (by simp)
      have hcount : c + (d :: ds).length = (c + 1) + ds.length := by
        simp only [List.length_cons]
        omega
      rw [espRun, show (Esp8266_ProcessRxByte ⟨.ESP8266_GET_RX_PACKET_SIZE, c, p, sz, s⟩ d).1
            = ({ esp_state := .ESP8266_GET_RX_PACKET_SIZE, count := c + 1,
                 packet := updateFn p c d, packetSize := sz, status := s } : EspState) by
            simp [Esp8266_ProcessRxByte, hd]]
      rw [hcount, writeSeq]
      exact ih (c + 1) (updateFn p c d) (fun b hb => h b (by simp [hb]))

theorem bodyRun (body : List Nat) (c : Nat) (p : Nat → Nat) (L : Int) (s : Nat)
    (hlen : 1 ≤ body.length) (hL : (c : Int) + body.length = L) :
    espRun ⟨.ESP8266_GET_RX_PACKET, c, p, L, s⟩ body =
      ⟨.ESP8266_RESET, c + body.length, writeSeq p c body, L,
        s ||| ESP8266_RX_PACKET_MESSAGE⟩ := by
  induction body generalizing c p with
  | nil => simp at hlen
  | cons b rest ih =>
      cases rest with
      | nil =>
          have hc : L ≤ (c : Int) + 1 := by
            simp only [List.length_cons, List.length_nil] at hL
            push_cast at hL
            omega
          rw [espRun, show (Esp8266_ProcessRxByte ⟨.ESP8266_GET_RX_PACKET, c, p, L, s⟩ b).1
                = ({ esp_state := .ESP8266_RESET, count := c + 1,
                     packet := updateFn p c b, packetSize := L,
                     status := s ||| ESP8266_RX_PACKET_MESSAGE } : EspState) by
                simp [Esp8266_ProcessRxByte, hc]]
          simp [espRun, writeSeq]
      | cons b2 rest2 =>
          have hc : ¬ L ≤ (c : Int) + 1 := by
            simp only [List.length_cons] at hL
            push_cast at hL
            omega
          have hcount : c + (b :: b2 :: rest2).length = (c + 1) + (b2 :: rest2).length := by
            simp only [List.length_cons]
            omega
          rw [espRun, show (Esp8266_ProcessRxByte ⟨.ESP8266_GET_RX_PACKET, c, p, L, s⟩ b).1
                = ({ esp_state := .ESP8266_GET_RX_PACKET, count := c + 1,
                     packet := updateFn p c b, packetSize := L,
                     status := s } : EspState) by
                simp [Esp8266_ProcessRxByte, hc]]
          rw [hcount, writeSeq]
          exact ih (c + 1) (updateFn p c b) (by simp)
            (by simp only [List.length_cons] at hL ⊢; push_cast at hL ⊢; omega)

theorem digitsGood : ∀ L, L < 65 →
    (∀ b ∈ decDigits L, b ≠ 58 ∧ b ≠ 0) ∧ sscanfDec (decDigits L) = some (L : Int) := by
  decide

/-! ## Bitwise facts about the 8-bit status word -/

theorem testBit_255 (i : Nat) (h : i < 8) : Nat.testBit 255 i = true := by
  interval_cases i <;> decide

theorem testBit_high (m : Nat) (hm : m < 256) (i : Nat) (h : 8 ≤ i) :
    m.testBit i = false := by
  apply Nat.testBit_lt_two_pow
  calc m < 256 := hm
    _ = 2 ^ 8 := by norm_num
    _ ≤ 2 ^ i := Nat.pow_le_pow_right (by norm_num) h

theorem clearMask_land_self (s m : Nat) (hm : m < 256) : clearMask s m &&& m = 0 := by
  apply Nat.eq_of_testBit_eq
  intro i
  rw [clearMask, Nat.testBit_land, Nat.testBit_land, Nat.testBit_xor, Nat.zero_testBit]
  by_cases hi : i < 8
  · rw [testBit_255 i hi]
    cases m.testBit i <;> simp
  · rw [testBit_high m hm i (le_of_not_lt hi)]
    simp

theorem clearMask_outside (s m k : Nat) (hs : s < 256) (hm : m < 256)
    (hk : k &&& m = 0) : clearMask s m &&& k = s &&& k := by
  apply Nat.eq_of_testBit_eq
  intro i
  have hk2 : (k.testBit i && m.testBit i) = false := by
    have h0 : (k &&& m).testBit i = false := by
      rw [hk]
      exact Nat.zero_testBit i
    rw [Nat.testBit_land] at h0
    exact h0
  rw [clearMask, Nat.testBit_land, Nat.testBit_land, Nat.testBit_land, Nat.testBit_xor]
  by_cases hi : i < 8
  · rw [testBit_255 i hi]
    cases hkb : k.testBit i
    · simp
    · rw [hkb] at hk2
      simp at hk2
      rw [hk2]
      simp
  · rw [testBit_high s hs i (le_of_not_lt hi)]
    simp

/-! ## FIFO run lemmas -/

theorem enqAll_append (xs ys : List Nat) (q : UartFifo) :
    enqAll q (xs ++ ys) =
      ((enqAll q xs).1 ++ (enqAll (enqAll q xs).2 ys).1, (enqAll (enqAll q xs).2 ys).2) := by
  induction xs generalizing q with
  | nil => rfl
  | cons b bs ih => simp [enqAll, ih]

theorem enqRun (bs : List Nat) (f : Nat → Nat) (e : Nat) (h : e + bs.length ≤ 63) :
    enqAll ⟨f, e, 0⟩ bs =
      (List.replicate bs.length 1, ⟨writeSeq f e bs, e + bs.length, 0⟩) := by
  induction bs generalizing f e with
  | nil => simp [enqAll, writeSeq]
  | cons b bs ih =>
      simp only [List.length_cons] at h
      have hnext : Uart_FifoGetNextIndex e = e + 1 := by
        rw [Uart_FifoGetNextIndex, if_neg]
        simp only [UART_BUFFER_SIZE]
        omega
      have hstep : Uart_FifoEnqueue ⟨f, e, 0⟩ b = (1, ⟨updateFn f e b, e + 1, 0⟩) := by
        rw [Uart_FifoEnqueue, if_pos]
        · simp [hnext]
        · simp [Uart_FifoIsFull, hnext]
      rw [enqAll, hstep]
      rw [ih (updateFn f e b) (e + 1) (by omega)]
      simp [writeSeq, List.replicate_succ] <;> omega

theorem deqRun (n : Nat) (f : Nat → Nat) (e d : Nat) (h : d + n ≤ e) (he : e ≤ 63) :
    deqAll ⟨f, e, d⟩ n =
      ((List.range n).map (fun i => f (d + i)), ⟨f, e, d + n⟩) := by
  induction n generalizing d with
  | zero => simp [deqAll]
  | succ n ih =>
      have hnext : Uart_FifoGetNextIndex d = d + 1 := by
        rw [Uart_FifoGetNextIndex, if_neg]
        simp only [UART_BUFFER_SIZE]
        omega
      have hstep : Uart_FifoDequeue ⟨f, e, d⟩ = (f d, ⟨f, e, d + 1⟩) := by
        rw [Uart_FifoDequeue, if_pos]
        · simp [hnext]
        · simp [Uart_FifoIsEmpty]
          omega
      rw [deqAll, hstep]
      rw [ih (d + 1) (by omega)]
      simp only [List.range_succ_eq_map, List.map_cons, List.map_map, Prod.mk.injEq,
        List.cons.injEq, UartFifo.mk.injEq]
      refine ⟨⟨by simp, ?_⟩, trivial, trivial, by omega⟩
      apply List.map_congr_left
      intro a _
      simp only [Function.comp_apply]
      exact congrArg f (by omega)

theorem rangeMap_writeSeq (bs : List Nat) (f : Nat → Nat) (c : Nat) :
    (List.range bs.length).map (fun i => writeSeq f c bs (c + i)) = bs := by
  induction bs generalizing f c with
  | nil => simp
  | cons b bs ih =>
      simp only [List.length_cons, List.range_succ_eq_map, List.map_cons, List.map_map,
        List.cons.injEq]
      refine ⟨?_, ?_⟩
      · rw [Nat.add_zero, writeSeq, writeSeq_lt bs (updateFn f c b) (c + 1) c (by omega)]
        simp [updateFn]
      · rw [show ((fun i => writeSeq f c (b :: bs) (c + i)) ∘ Nat.succ)
              = fun i => writeSeq (updateFn f c b) (c + 1) bs ((c + 1) + i) from by
            funext i
            simp only [Function.comp_apply, writeSeq]
            exact congrArg (writeSeq (updateFn f c b) (c + 1) bs) (by omega)]
        exact ih (updateFn f c b) (c + 1)

theorem enqReject (ys : List Nat) (q : UartFifo) (hlen : ys.length = 1)
    (hfull : Uart_FifoIsFull q = true) : enqAll q ys = ([0], q) := by
  match ys, hlen with
  | [y], _ =>
      rw [enqAll, Uart_FifoEnqueue, if_neg (by simp [hfull])]
      rfl


theorem stepWrites (st : EspState) (b : Nat) (hinv : WriteInv st)
    (hcnt : st.esp_state = .ESP8266_GET_RX_PACKET_SIZE → st.count ≤ 63) :
    ∀ w ∈ (Esp8266_ProcessRxByte st b).2.1, w < 64 := by
  obtain ⟨es, cnt, pk, ps, stt⟩ := st
  cases es with
  | ESP8266_RESET => simp [Esp8266_ProcessRxByte]
  | ESP8266_GET_READY =>
      simp only [Esp8266_ProcessRxByte]
      split_ifs <;> simp
  | ESP8266_GET_OK =>
      simp only [Esp8266_ProcessRxByte]
      split_ifs <;> simp
  | ESP8266_GET_RX_HEADER =>
      simp only [Esp8266_ProcessRxByte]
      split_ifs <;> simp
  | ESP8266_GET_TX =>
      simp only [Esp8266_ProcessRxByte]
      split_ifs <;> simp
  | ESP8266_GET_RX_PACKET_SIZE =>
      have hc : cnt ≤ 63 := hcnt rfl
      simp only [Esp8266_ProcessRxByte]
      split_ifs with h
      · intro w hw
        simp at hw
        omega
      · split <;> (intro w hw; simp at hw; omega)
  | ESP8266_GET_RX_PACKET =>
      have h2 : (cnt = 0 ∨ (cnt : Int) < ps) ∧ ps ≤ 64 := hinv rfl
      intro w hw
      simp only [Esp8266_ProcessRxByte] at hw
      split_ifs at hw <;> (simp at hw; rcases h2 with ⟨h3 | h3, h4⟩ <;> omega)

theorem stepInv (st : EspState) (b : Nat) (hinv : WriteInv st)
    (hdecl : ∀ v ∈ (Esp8266_ProcessRxByte st b).2.2, v ≤ 64) :
    WriteInv (Esp8266_ProcessRxByte st b).1 := by
  obtain ⟨es, cnt, pk, ps, stt⟩ := st
  cases es with
  | ESP8266_RESET =>
      intro habs
      simp only [Esp8266_ProcessRxByte] at habs
      split_ifs at habs
  | ESP8266_GET_READY =>
      intro habs
      simp only [Esp8266_ProcessRxByte] at habs
      split_ifs at habs
  | ESP8266_GET_OK =>
      intro habs
      simp only [Esp8266_ProcessRxByte] at habs
      split_ifs at habs
  | ESP8266_GET_RX_HEADER =>
      intro habs
      simp only [Esp8266_ProcessRxByte] at habs
      split_ifs at habs
  | ESP8266_GET_TX =>
      intro habs
      simp only [Esp8266_ProcessRxByte] at habs
      split_ifs at habs
  | ESP8266_GET_RX_PACKET_SIZE =>
      by_cases h : b ≠ 58
      · intro habs
        simp only [Esp8266_ProcessRxByte, if_pos h] at habs
        simp at habs
      · rcases hs : sscanfDec (cStringFrom (updateFn pk cnt 0) 0 (cnt + 1)) with _ | v
        · intro habs
          simp only [Esp8266_ProcessRxByte, if_neg h, hs] at habs
          simp at habs
        · intro _
          simp only [Esp8266_ProcessRxByte, if_neg h, hs] at hdecl
          simp only [Esp8266_ProcessRxByte, if_neg h, hs]
          exact ⟨Or.inl (by simp), hdecl v (by simp)⟩
  | ESP8266_GET_RX_PACKET =>
      have h2 : (cnt = 0 ∨ (cnt : Int) < ps) ∧ ps ≤ 64 := hinv rfl
      by_cases h : ((cnt + 1 : Nat) : Int) ≥ ps
      · intro habs
        simp only [Esp8266_ProcessRxByte, if_pos h] at habs
        simp at habs
      · intro _
        simp only [Esp8266_ProcessRxByte, if_neg h]
        refine ⟨Or.inr ?_, h2.2⟩
        push_cast at h ⊢
        omega

theorem c9_aux (stream : List Nat) (st : EspState) (hinv : WriteInv st)
    (hfield : ∀ i, i < stream.length →
      (espRun st (stream.take i)).esp_state = .ESP8266_GET_RX_PACKET_SIZE →
      (espRun st (stream.take i)).count ≤ 63)
    (hdecl : ∀ v ∈ espRunDeclared st stream, v ≤ 64) :
    ∀ w ∈ espRunWrites st stream, w < 64 := by
  induction stream generalizing st with
  | nil => simp [espRunWrites]
  | cons b bs ih =>
      have hcnt : st.esp_state = .ESP8266_GET_RX_PACKET_SIZE → st.count ≤ 63 := by
        have h0 := hfield 0 (by simp)
        simpa [espRun] using h0
      have hheaddecl : ∀ v ∈ (Esp8266_ProcessRxByte st b).2.2, v ≤ 64 := by
        intro v hv
        exact hdecl v (by rw [espRunDeclared]; exact List.mem_append_left _ hv)
      have hinv2 := stepInv st b hinv hheaddecl
      have hfield2 : ∀ i, i < bs.length →
          (espRun (Esp8266_ProcessRxByte st b).1 (bs.take i)).esp_state =
            .ESP8266_GET_RX_PACKET_SIZE →
          (espRun (Esp8266_ProcessRxByte st b).1 (bs.take i)).count ≤ 63 := by
        intro i hi
        have h1 := hfield (i + 1) (by simpa using Nat.succ_lt_succ hi)
        simpa [List.take_succ_cons, espRun] using h1
      have hdecl2 : ∀ v ∈ espRunDeclared (Esp8266_ProcessRxByte st b).1 bs, v ≤ 64 := by
        intro v hv
        exact hdecl v (by rw [espRunDeclared]; exact List.mem_append_right _ hv)
      intro w hw
      rw [espRunWrites] at hw
      rcases List.mem_append.mp hw with h1 | h2
      · exact stepWrites st b hinv hcnt w h1
      · exact ih (Esp8266_ProcessRxByte st b).1 hinv2 hfield2 hdecl2 w h2

/-! ## Claim theorems -/

/-- C1 counterexample: for declared length L = 0 the claim fails.  Feeding the
complete stream `+IPD,1,0:` (header, the ASCII digit of 0, the colon, and
exactly zero body bytes) from the IDLE state does not set the packet-available
status bit, and the machine is left waiting in the body-reading state rather
than returned to IDLE. -/
theorem ipd_zero_length_no_flag :
    (espRun espInit zeroLenStream).status &&& ESP8266_RX_PACKET_MESSAGE = 0 ∧
    (espRun espInit zeroLenStream).esp_state = RxState.ESP8266_GET_RX_PACKET := by
  decide

/-- C1 (amended to declared lengths L in [1, 64]): starting in the IDLE state,
feeding the header `+IPD,1,`, the ASCII decimal digits of L, the colon, and
exactly L arbitrary body bytes sets the packet-available status bit, records
packet length L, stores the L body bytes at the start of the packet buffer,
and returns the machine to IDLE. -/
theorem ipd_packet_reconstruction (L : Nat) (h1 : 1 ≤ L) (h2 : L ≤ 64)
    (body : List Nat) (hb : body.length = L) (c : Nat) (p : Nat → Nat)
    (sz : Int) (s : Nat) :
    (espRun ⟨.ESP8266_RESET, c, p, sz, s⟩
        (RX_PACKET_MSG ++ decDigits L ++ [58] ++ body)).status =
      s ||| ESP8266_RX_PACKET_MESSAGE ∧
    (espRun ⟨.ESP8266_RESET, c, p, sz, s⟩
        (RX_PACKET_MSG ++ decDigits L ++ [58] ++ body)).packetSize = (L : Int) ∧
    (∀ i, i < L →
      (espRun ⟨.ESP8266_RESET, c, p, sz, s⟩
          (RX_PACKET_MSG ++ decDigits L ++ [58] ++ body)).packet i = body.getD i 0) ∧
    (espRun ⟨.ESP8266_RESET, c, p, sz, s⟩
        (RX_PACKET_MSG ++ decDigits L ++ [58] ++ body)).esp_state = .ESP8266_RESET := by
  obtain ⟨hds, hparse⟩ := digitsGood L (by omega)
  have hcs : cStringFrom (updateFn (writeSeq p 0 (decDigits L)) (decDigits L).length 0) 0
      ((decDigits L).length + 1) = decDigits L := by
    have h0 := cString_writeSeq (decDigits L) p 0 (fun b hb2 => (hds b hb2).2)
    simpa using h0
  have hcolon : espRun ⟨.ESP8266_GET_RX_PACKET_SIZE, (decDigits L).length,
      writeSeq p 0 (decDigits L), sz, s⟩ [58]
      = ⟨.ESP8266_GET_RX_PACKET, 0,
          updateFn (writeSeq p 0 (decDigits L)) (decDigits L).length 0, (L : Int), s⟩ := by
    simp only [espRun, Esp8266_ProcessRxByte]
    rw [if_neg (by simp)]
    rw [hcs, hparse]
  have key : espRun ⟨.ESP8266_RESET, c, p, sz, s⟩
      (RX_PACKET_MSG ++ decDigits L ++ [58] ++ body)
      = ⟨.ESP8266_RESET, body.length,
          writeSeq (updateFn (writeSeq p 0 (decDigits L)) (decDigits L).length 0) 0 body,
          (L : Int), s ||| ESP8266_RX_PACKET_MESSAGE⟩ := by
    rw [espRun_append, espRun_append, espRun_append, headerRun,
        sizeRun (decDigits L) 0 p sz s (fun b hb2 => (hds b hb2).1)]
    simp only [Nat.zero_add]
    rw [hcolon, bodyRun body 0 _ (L : Int) s (by omega) (by push_cast; omega)]
    simp only [Nat.zero_add]
  rw [key]
  refine ⟨rfl, rfl, ?_, rfl⟩
  intro i hi
  have hw := writeSeq_at body
    (updateFn (writeSeq p 0 (decDigits L)) (decDigits L).length 0) 0 i (by omega)
  simpa using hw

/-- C1 witness: the amended theorem applied at L = 2 with body bytes [7, 9]
from the freshly reset engine. -/
theorem ipd_packet_reconstruction_witness :
    (espRun ⟨.ESP8266_RESET, 0, fun _ => 0, 0, 0⟩
        (RX_PACKET_MSG ++ decDigits 2 ++ [58] ++ [7, 9])).status =
      0 ||| ESP8266_RX_PACKET_MESSAGE ∧
    (espRun ⟨.ESP8266_RESET, 0, fun _ => 0, 0, 0⟩
        (RX_PACKET_MSG ++ decDigits 2 ++ [58] ++ [7, 9])).packetSize = (2 : Int) ∧
    (∀ i, i < 2 →
      (espRun ⟨.ESP8266_RESET, 0, fun _ => 0, 0, 0⟩
          (RX_PACKET_MSG ++ decDigits 2 ++ [58] ++ [7, 9])).packet i =
        ([7, 9] : List Nat).getD i 0) ∧
    (espRun ⟨.ESP8266_RESET, 0, fun _ => 0, 0, 0⟩
        (RX_PACKET_MSG ++ decDigits 2 ++ [58] ++ [7, 9])).esp_state = .ESP8266_RESET :=
  ipd_packet_reconstruction 2 (by decide) (by decide) [7, 9] (by decide) 0 (fun _ => 0) 0 0

/-- C3 counterexample: a received packet with direction code 4 (SHARP_LEFT) or
6 (SHARP_RIGHT) produces no actuator call at all from the main-loop switch,
even though DriveCtrl_Turn implements both sharp turns. -/
theorem sharp_codes_not_dispatched :
    mainDispatch pktSharpLeft = [] ∧ mainDispatch pktSharpRight = [] ∧
    DriveCtrl_Turn SHARP_LEFT =
      [MotorCmd.motor LEFT BACKWARD, MotorCmd.motor RIGHT FORWARD] ∧
    DriveCtrl_Turn SHARP_RIGHT =
      [MotorCmd.motor LEFT FORWARD, MotorCmd.motor RIGHT BACKWARD] := by
  decide

/-- C3 (amended): the main-loop dispatch issues the corresponding motor action
with the second byte as speed for the five handled codes 0 = stop, 1 =
forward, 2 = backward, 3 = left, 5 = right; codes 4 (sharp-left) and 6
(sharp-right) issue no action; the DriveCtrl_Turn actuator maps the four turn
codes to their motor pairs. -/
theorem main_dispatch_cases (pkt : Nat → Nat) :
    (pkt 0 = STOP → mainDispatch pkt = [DriveAction.stop, DriveAction.setSpeed 0]) ∧
    (pkt 0 = FORWARD →
      mainDispatch pkt = [DriveAction.forward, DriveAction.setSpeed (pkt 1)]) ∧
    (pkt 0 = BACKWARD →
      mainDispatch pkt = [DriveAction.backward, DriveAction.setSpeed (pkt 1)]) ∧
    (pkt 0 = LEFT →
      mainDispatch pkt = [DriveAction.turn LEFT, DriveAction.setSpeed (pkt 1)]) ∧
    (pkt 0 = RIGHT →
      mainDispatch pkt = [DriveAction.turn RIGHT, DriveAction.setSpeed (pkt 1)]) ∧
    (pkt 0 = SHARP_LEFT → mainDispatch pkt = []) ∧
    (pkt 0 = SHARP_RIGHT → mainDispatch pkt = []) ∧
    DriveCtrl_Turn LEFT = [MotorCmd.motor LEFT STOP, MotorCmd.motor RIGHT FORWARD] ∧
    DriveCtrl_Turn SHARP_LEFT =
      [MotorCmd.motor LEFT BACKWARD, MotorCmd.motor RIGHT FORWARD] ∧
    DriveCtrl_Turn RIGHT = [MotorCmd.motor LEFT FORWARD, MotorCmd.motor RIGHT STOP] ∧
    DriveCtrl_Turn SHARP_RIGHT =
      [MotorCmd.motor LEFT FORWARD, MotorCmd.motor RIGHT BACKWARD] := by
  refine ⟨?_, ?_, ?_, ?_, ?_, ?_, ?_, by decide, by decide, by decide, by decide⟩ <;>
    (intro h;
     simp [mainDispatch, h, STOP, FORWARD, BACKWARD, LEFT, SHARP_LEFT, RIGHT, SHARP_RIGHT])

/-- C3 witness: a forward packet with speed byte 30 dispatches forward at
speed 30. -/
theorem main_dispatch_cases_witness :
    mainDispatch (fun i => if i = 0 then 1 else 30) =
      [DriveAction.forward, DriveAction.setSpeed 30] :=
  (main_dispatch_cases (fun i => if i = 0 then 1 else 30)).2.1 (by decide)

/-- C4: WaitForResponse ignores its timeout argument entirely: its result is
the same for every timeout value (in particular for both sentinels), and
whenever it returns, the result is 1 (never 0) and some observed status word
had every bit of the mask set. -/
theorem wait_timeout_unenforced (m t t2 : Nat) (obs : List Nat) :
    WaitForResponse m t obs = WaitForResponse m t2 obs ∧
    (∀ r s2, WaitForResponse m t obs = some (r, s2) →
      r = 1 ∧ ∃ s ∈ obs, s &&& m = m) := by
  constructor
  · induction obs with
    | nil => rfl
    | cons s rest ih =>
        rw [WaitForResponse, WaitForResponse]
        split_ifs with h
        · rfl
        · exact ih
  · induction obs with
    | nil =>
        intro r s2 h
        simp [WaitForResponse] at h
    | cons s rest ih =>
        intro r s2 h
        rw [WaitForResponse] at h
        split_ifs at h with hcond
        · simp only [Option.some.injEq, Prod.mk.injEq] at h
          exact ⟨h.1.symm, ⟨s, by simp, hcond⟩⟩
        · obtain ⟨hr, s3, hs3, hm3⟩ := ih r s2 h
          exact ⟨hr, s3, List.mem_cons_of_mem _ hs3, hm3⟩

/-- C4 witness: the theorem applied at mask 8 with the two sentinel timeout
magnitudes and the observation list [0, 8]. -/
theorem wait_timeout_unenforced_witness :
    WaitForResponse 8 TIMEOUT_LONG [0, 8] = WaitForResponse 8 TIMEOUT_SHORT [0, 8] ∧
    (1 = 1 ∧ ∃ s ∈ [0, 8], s &&& 8 = 8) :=
  ⟨(wait_timeout_unenforced 8 TIMEOUT_LONG TIMEOUT_SHORT [0, 8]).1,
   (wait_timeout_unenforced 8 TIMEOUT_LONG TIMEOUT_SHORT [0, 8]).2 1 0 (by decide)⟩

/-- C5: when WaitForResponse succeeds, the status word afterwards is the
status observed at the moment of success with exactly the mask bits cleared:
bits outside the mask keep their value, the mask bits read 0, and a second
wait on the same mask off the now-cleared word does not succeed. -/
theorem wait_clears_only_mask (m t : Nat) (obs : List Nat) (r s2 : Nat)
    (hm0 : m ≠ 0) (hm : m < 256) (hobs : ∀ x ∈ obs, x < 256)
    (h : WaitForResponse m t obs = some (r, s2)) :
    ∃ s ∈ obs, s &&& m = m ∧ s2 = clearMask s m ∧
      (∀ k, k &&& m = 0 → s2 &&& k = s &&& k) ∧
      s2 &&& m = 0 ∧ (∀ t2, WaitForResponse m t2 [s2] = none) := by
  induction obs with
  | nil => simp [WaitForResponse] at h
  | cons s rest ih =>
      rw [WaitForResponse] at h
      split_ifs at h with hcond
      · simp only [Option.some.injEq, Prod.mk.injEq] at h
        obtain ⟨-, hs2⟩ := h
        subst hs2
        refine ⟨s, by simp, hcond, rfl, ?_, ?_, ?_⟩
        · intro k hk
          exact clearMask_outside s m k (hobs s (by simp)) hm hk
        · exact clearMask_land_self s m hm
        · intro t2
          rw [WaitForResponse, if_neg]
          · rfl
          · rw [clearMask_land_self s m hm]
            exact fun hcontra => hm0 hcontra.symm
      · obtain ⟨s3, hs3, hrest⟩ := ih (fun x hx => hobs x (by simp [hx])) h
        exact ⟨s3, List.mem_cons_of_mem _ hs3, hrest⟩

/-- C5 witness: mask 1 over the observations [2, 11]; success occurs at 11,
the returned status is 10, and the follow-up wait on [10] spins. -/
theorem wait_clears_only_mask_witness :
    ∃ s ∈ [2, 11], s &&& 1 = 1 ∧ 10 = clearMask s 1 ∧
      (∀ k, k &&& 1 = 0 → 10 &&& k = s &&& k) ∧
      10 &&& 1 = 0 ∧ (∀ t2, WaitForResponse 1 t2 [10] = none) :=
  wait_clears_only_mask 1 TIMEOUT_SHORT [2, 11] 1 10 (by decide) (by decide)
    (by decide) (by decide)

set_option maxRecDepth 20000 in
/-- C2: feeding each flag-raising literal ("OK\r\n", "ready\r\n", "> ")
exactly, byte by byte from IDLE, sets exactly its status bit and returns the
machine to IDLE; the exact header prefix "+IPD,1," sets no bit and moves to
the length-reading state per its own rule; and corrupting any one byte of any
of the four literals, at any offset and with any wrong byte value, sets no
status bit and leaves the machine back in IDLE after the stream. -/
theorem literal_match_and_corruption :
    (∀ (c : Nat) (p : Nat → Nat) (sz : Int) (s : Nat),
      espRun ⟨.ESP8266_RESET, c, p, sz, s⟩ OK_MSG =
        ⟨.ESP8266_RESET, 4, p, sz, s ||| ESP8266_OK_MESSAGE⟩) ∧
    (∀ (c : Nat) (p : Nat → Nat) (sz : Int) (s : Nat),
      espRun ⟨.ESP8266_RESET, c, p, sz, s⟩ READY_MSG =
        ⟨.ESP8266_RESET, 7, p, sz, s ||| ESP8266_READY_MESSAGE⟩) ∧
    (∀ (c : Nat) (p : Nat → Nat) (sz : Int) (s : Nat),
      espRun ⟨.ESP8266_RESET, c, p, sz, s⟩ TX_READY_MSG =
        ⟨.ESP8266_RESET, 2, p, sz, s ||| ESP8266_TX_READY_MESSAGE⟩) ∧
    (∀ (c : Nat) (p : Nat → Nat) (sz : Int) (s : Nat),
      espRun ⟨.ESP8266_RESET, c, p, sz, s⟩ RX_PACKET_MSG =
        ⟨.ESP8266_GET_RX_PACKET_SIZE, 0, p, sz, s⟩) ∧
    (∀ lit ∈ [OK_MSG, READY_MSG, TX_READY_MSG, RX_PACKET_MSG],
      ∀ i < lit.length, ∀ b < 256, b ≠ lit.getD i 0 →
        (espRun espInit (lit.set i b)).status = 0 ∧
        (espRun espInit (lit.set i b)).esp_state = .ESP8266_RESET) := by
  refine ⟨okRun, readyRun, txRun, headerRun, ?_⟩
  decide

/-- C2 witness: corrupting "OK\r\n" at offset 1 with byte 0 raises no flag
and ends in IDLE. -/
theorem literal_match_and_corruption_witness :
    (espRun espInit (OK_MSG.set 1 0)).status = 0 ∧
    (espRun espInit (OK_MSG.set 1 0)).esp_state = .ESP8266_RESET :=
  literal_match_and_corruption.2.2.2.2 OK_MSG (by decide) 1 (by decide) 0 (by decide)
    (by decide)

/-- C6: Esp8266_ReceiveMsg is consuming.  With the RX-packet bit set it
returns the recorded length, copies the packet body to the caller's buffer,
and clears the bit so that an immediately following call returns 0; with the
bit clear it returns 0 and changes nothing. -/
theorem receiveMsg_consuming (st : EspState) (dest dest2 : Nat → Nat) :
    (st.status &&& ESP8266_RX_PACKET_MESSAGE ≠ 0 →
      (Esp8266_ReceiveMsg st dest).1 = st.packetSize ∧
      (∀ i : Nat, (i : Int) < st.packetSize →
        (Esp8266_ReceiveMsg st dest).2.2 i = st.packet i) ∧
      (Esp8266_ReceiveMsg (Esp8266_ReceiveMsg st dest).2.1 dest2).1 = 0) ∧
    (st.status &&& ESP8266_RX_PACKET_MESSAGE = 0 →
      Esp8266_ReceiveMsg st dest = (0, st, dest)) := by
  constructor
  · intro h
    have hstep : Esp8266_ReceiveMsg st dest =
        (st.packetSize,
         { st with status := clearMask st.status ESP8266_RX_PACKET_MESSAGE },
         fun (i : Nat) => if (i : Int) < st.packetSize then st.packet i else dest i) := by
      unfold Esp8266_ReceiveMsg
      rw [if_pos h]
    rw [hstep]
    refine ⟨rfl, ?_, ?_⟩
    · intro i hi
      simp [hi]
    · have hz : clearMask st.status ESP8266_RX_PACKET_MESSAGE &&&
          ESP8266_RX_PACKET_MESSAGE = 0 :=
        clearMask_land_self st.status ESP8266_RX_PACKET_MESSAGE
          (by norm_num [ESP8266_RX_PACKET_MESSAGE])
      unfold Esp8266_ReceiveMsg
      rw [if_neg (by simp [hz])]
  · intro h
    unfold Esp8266_ReceiveMsg
    rw [if_neg (by simp [h])]

/-- C6 witness: a state with the RX bit set (status 8) and recorded length 2;
the first call returns 2 and copies, the second call returns 0. -/
theorem receiveMsg_consuming_witness :
    (Esp8266_ReceiveMsg ⟨.ESP8266_RESET, 0, fun _ => 3, 2, 8⟩ (fun _ => 0)).1 = 2 ∧
    (∀ i : Nat, (i : Int) < 2 →
      (Esp8266_ReceiveMsg ⟨.ESP8266_RESET, 0, fun _ => 3, 2, 8⟩ (fun _ => 0)).2.2 i = 3) ∧
    (Esp8266_ReceiveMsg
      (Esp8266_ReceiveMsg ⟨.ESP8266_RESET, 0, fun _ => 3, 2, 8⟩ (fun _ => 0)).2.1
      (fun _ => 0)).1 = 0 :=
  (receiveMsg_consuming ⟨.ESP8266_RESET, 0, fun _ => 3, 2, 8⟩ (fun _ => 0)
    (fun _ => 0)).1 (by decide)

/-- C7: starting from an empty FIFO with both cursors at 0, enqueueing N ≤ 63
bytes succeeds every time and dequeueing N times returns exactly those bytes
in order; enqueueing 64 bytes makes the FIFO report full after the first 63,
the 64th enqueue returns 0, and the FIFO state (buffer and cursors) is
exactly what it was after the 63rd enqueue — nothing is overwritten. -/
theorem fifo_roundtrip_and_full (bs : List Nat) (f : Nat → Nat)
    (h : bs.length ≤ 63) :
    (enqAll ⟨f, 0, 0⟩ bs).1 = List.replicate bs.length 1 ∧
    (deqAll (enqAll ⟨f, 0, 0⟩ bs).2 bs.length).1 = bs ∧
    (∀ cs : List Nat, cs.length = 64 →
      Uart_FifoIsFull (enqAll ⟨f, 0, 0⟩ (cs.take 63)).2 = true ∧
      (enqAll ⟨f, 0, 0⟩ cs).1 = List.replicate 63 1 ++ [0] ∧
      (enqAll ⟨f, 0, 0⟩ cs).2 = (enqAll ⟨f, 0, 0⟩ (cs.take 63)).2) := by
  have henq := enqRun bs f 0 (by omega)
  refine ⟨by rw [henq], ?_, ?_⟩
  · rw [henq]
    have hdeq := deqRun bs.length (writeSeq f 0 bs) (0 + bs.length) 0 (by omega) (by omega)
    rw [hdeq]
    exact rangeMap_writeSeq bs f 0
  · intro cs hcs
    have htake : (cs.take 63).length = 63 := by simp [hcs]
    have henq63 := enqRun (cs.take 63) f 0 (by omega)
    have hfull : Uart_FifoIsFull (enqAll ⟨f, 0, 0⟩ (cs.take 63)).2 = true := by
      rw [henq63]
      simp [Uart_FifoIsFull, Uart_FifoGetNextIndex, UART_BUFFER_SIZE, htake]
    have hsplit := (List.take_append_drop 63 cs).symm
    have hdroplen : (cs.drop 63).length = 1 := by simp [hcs]
    have hrej := enqReject (cs.drop 63) (enqAll ⟨f, 0, 0⟩ (cs.take 63)).2 hdroplen hfull
    have key : enqAll ⟨f, 0, 0⟩ cs =
        ((enqAll ⟨f, 0, 0⟩ (cs.take 63)).1 ++ [0],
         (enqAll ⟨f, 0, 0⟩ (cs.take 63)).2) := by
      conv_lhs => rw [hsplit]
      rw [enqAll_append, hrej]
    refine ⟨hfull, ?_, ?_⟩
    · rw [key, henq63, htake]
    · rw [key]

/-- C7 witness: round trip of [5, 6] and rejection of the 64th byte on a
64-byte all-7 input, from the cleared FIFO. -/
theorem fifo_roundtrip_and_full_witness :
    (enqAll ⟨fun _ => 0, 0, 0⟩ [5, 6]).1 = List.replicate 2 1 ∧
    (deqAll (enqAll ⟨fun _ => 0, 0, 0⟩ [5, 6]).2 2).1 = [5, 6] ∧
    (Uart_FifoIsFull (enqAll ⟨fun _ => 0, 0, 0⟩ ((List.replicate 64 7).take 63)).2
        = true ∧
     (enqAll ⟨fun _ => 0, 0, 0⟩ (List.replicate 64 7)).1 =
       List.replicate 63 1 ++ [0] ∧
     (enqAll ⟨fun _ => 0, 0, 0⟩ (List.replicate 64 7)).2 =
       (enqAll ⟨fun _ => 0, 0, 0⟩ ((List.replicate 64 7).take 63)).2) :=
  ⟨(fifo_roundtrip_and_full [5, 6] (fun _ => 0) (by decide)).1,
   (fifo_roundtrip_and_full [5, 6] (fun _ => 0) (by decide)).2.1,
   (fifo_roundtrip_and_full [5, 6] (fun _ => 0) (by decide)).2.2
     (List.replicate 64 7) (by decide)⟩

/-- C8: on the truncated stream `+IPD,1,2:` followed by the single body byte
0, the packet-available bit is never set at any prefix of the stream, and a
subsequent Esp8266_ReceiveMsg call returns 0. -/
theorem truncated_packet_no_flag :
    (∀ k, k ≤ truncatedStream.length →
      (espRun espInit (truncatedStream.take k)).status &&&
        ESP8266_RX_PACKET_MESSAGE = 0) ∧
    (∀ dest, (Esp8266_ReceiveMsg (espRun espInit truncatedStream) dest).1 = 0) := by
  constructor
  · decide
  · intro dest
    have hst : (espRun espInit truncatedStream).status = 0 := by decide
    unfold Esp8266_ReceiveMsg
    rw [if_neg (by simp [hst])]

/-- C8 witness: the flag is clear after the complete 10-byte truncated
stream. -/
theorem truncated_packet_no_flag_witness :
    (espRun espInit (truncatedStream.take 10)).status &&&
      ESP8266_RX_PACKET_MESSAGE = 0 :=
  truncated_packet_no_flag.1 10 (by decide)

set_option maxRecDepth 40000 in
/-- C9 counterexample: the stream `+IPD,1,` followed by 65 ASCII zeros and
`:` has every declared packet-length value at most 64 (its single declared
value parses to 0), yet the engine performs a write at index 64 — one past
the end of the 64-byte packet buffer — while accumulating the length field. -/
theorem length_field_overflow_write :
    espRunDeclared espInit overflowStream = [0] ∧
    64 ∈ espRunWrites espInit overflowStream := by
  constructor
  · decide
  · decide

/-- C9 (amended): if, in addition to every declared packet-length value being
at most 64, the length field never carries the progress counter past 63 (each
length field is at most 63 bytes), then every write into the packet buffer
uses an index strictly below the 64-byte capacity. -/
theorem packet_write_bounds (stream : List Nat)
    (hfield : ∀ i, i < stream.length →
      (espRun espInit (stream.take i)).esp_state = .ESP8266_GET_RX_PACKET_SIZE →
      (espRun espInit (stream.take i)).count ≤ 63)
    (hdecl : ∀ v ∈ espRunDeclared espInit stream, v ≤ 64) :
    ∀ w ∈ espRunWrites espInit stream, w < ESP8266_RX_BUFFER_SIZE := by
  have hinv : WriteInv espInit := by
    intro habs
    simp [espInit] at habs
  intro w hw
  have hlt := c9_aux stream espInit hinv hfield hdecl w hw
  simpa [ESP8266_RX_BUFFER_SIZE] using hlt

/-- C9 witness: the amended theorem applied to the well-formed stream
`+IPD,1,2:` followed by two body bytes, at the recorded write index 1. -/
theorem packet_write_bounds_witness :
    1 < ESP8266_RX_BUFFER_SIZE :=
  packet_write_bounds (RX_PACKET_MSG ++ [50, 58, 7, 9]) (by decide) (by decide)
    1 (by decide)

/-- C10: Esp8266_ReceiveMsg touches nothing in the protocol engine except the
RX-packet status bit: the packet buffer, the recorded length, the parse state
and progress counter are unchanged, and every status bit outside the RX bit
keeps its value, in both the packet-available and no-packet cases. -/
theorem receiveMsg_frame (st : EspState) (dest : Nat → Nat) (hs : st.status < 256) :
    (Esp8266_ReceiveMsg st dest).2.1.packet = st.packet ∧
    (Esp8266_ReceiveMsg st dest).2.1.packetSize = st.packetSize ∧
    (Esp8266_ReceiveMsg st dest).2.1.esp_state = st.esp_state ∧
    (Esp8266_ReceiveMsg st dest).2.1.count = st.count ∧
    (∀ k, k &&& ESP8266_RX_PACKET_MESSAGE = 0 →
      (Esp8266_ReceiveMsg st dest).2.1.status &&& k = st.status &&& k) := by
  unfold Esp8266_ReceiveMsg
  split_ifs with h
  · refine ⟨rfl, rfl, rfl, rfl, ?_⟩
    intro k hk
    exact clearMask_outside st.status ESP8266_RX_PACKET_MESSAGE k hs
      (by norm_num [ESP8266_RX_PACKET_MESSAGE]) hk
  · exact ⟨rfl, rfl, rfl, rfl, fun k hk => rfl⟩

/-- C10 witness: the frame property at a state with status 9 (RX bit and OK
bit set); the OK bit survives the call. -/
theorem receiveMsg_frame_witness :
    (Esp8266_ReceiveMsg ⟨.ESP8266_RESET, 0, fun _ => 0, 0, 9⟩ (fun _ => 0)).2.1.packet
        = (fun _ => (0 : Nat)) ∧
    (Esp8266_ReceiveMsg ⟨.ESP8266_RESET, 0, fun _ => 0, 0, 9⟩
        (fun _ => 0)).2.1.packetSize = 0 ∧
    (Esp8266_ReceiveMsg ⟨.ESP8266_RESET, 0, fun _ => 0, 0, 9⟩
        (fun _ => 0)).2.1.esp_state = .ESP8266_RESET ∧
    (Esp8266_ReceiveMsg ⟨.ESP8266_RESET, 0, fun _ => 0, 0, 9⟩
        (fun _ => 0)).2.1.count = 0 ∧
    (∀ k, k &&& ESP8266_RX_PACKET_MESSAGE = 0 →
      (Esp8266_ReceiveMsg ⟨.ESP8266_RESET, 0, fun _ => 0, 0, 9⟩
          (fun _ => 0)).2.1.status &&& k = 9 &&& k) :=
  receiveMsg_frame ⟨.ESP8266_RESET, 0, fun _ => 0, 0, 9⟩ (fun _ => 0) (by decide)
